import Mathlib

/-!
Shallow embedding of the Tic-Tac-Toe Nakama backend (`backend/game.go`).

The Go module keeps an in-memory map `games : map[string]*Game` and exposes
three RPC handlers: `createGameRPC`, `makeMoveRPC`, `getGameRPC`, plus the
pure helper `checkWinner`.  We model:

* the decoded JSON payload (`map[string]interface{}` after `json.Unmarshal`)
  as an association list of `JValue`s; JSON numbers decode to `float64` and
  are modelled as rationals (exact for every payload of interest), with the
  Go conversion `int(v)` modelled as truncation toward zero (`goIntOfNum`),
  so non-integral cells such as `8.5` are representable;
* the board (`string` of 9 bytes) as a `List Char`;
* the store as an association list `List (String × Game)` with Go map
  assignment semantics (`storeSet`);
* `rand.Intn(1000000)` by passing the pseudorandom draw as an argument.

Each Go early-`return` on an error becomes an `Except.error` branch that
returns the store untouched, mirroring the fact that the Go code mutates the
record only after all validation checks passed.
-/

namespace TicTacToe

/-- A decoded JSON value as produced by `json.Unmarshal` into
`map[string]interface{}`: numbers (`float64`, modelled as exact rationals
so that non-integral values like `8.5` are representable), strings,
booleans and JSON null.  The `makeMoveRPC` type switch only distinguishes
numbers, strings, and "everything else". -/
inductive JValue where
  | num (q : ℚ)
  | str (s : String)
  | boolean (b : Bool)
  | null
deriving Repr, DecidableEq

/-- `fmt.Sprintf("%v", v)` on the modelled JSON values (booleans print as
`true`/`false`, a nil interface as `<nil>`).  For numbers Go renders the
float64 in `%g` decimal notation; the rational is rendered with `toString`,
which agrees on integral values — no claim concerns a non-integral
`game_id`, the only field this formatting is applied to. -/
def fmtV : JValue → String
  | .num q => toString q
  | .str s => s
  | .boolean b => if b then "true" else "false"
  | .null => "<nil>"

/-- A decoded JSON object (`map[string]interface{}`). -/
abbrev Payload := List (String × JValue)

/-- `in[k]` map lookup on a decoded payload. -/
def lookupField (p : Payload) (k : String) : Option JValue :=
  (p.find? (fun kv => kv.1 == k)).map (fun kv => kv.2)

/-- `strconv.Atoi`: an optional sign followed by one or more digits;
any other shape is an error (`none`). -/
def goAtoi (s : String) : Option Int :=
  match s.toList with
  | [] => none
  | c :: rest =>
    let ds := if c = '-' ∨ c = '+' then rest else c :: rest
    if ds.isEmpty || !(ds.all Char.isDigit) then none
    else
      let n : Nat := ds.foldl (fun a d => a * 10 + (d.toNat - 48)) 0
      some (if c = '-' then -(n : Int) else (n : Int))

/-- The `Game` struct of `game.go`: a 9-cell board (`'-'` empty, `'X'`,
`'O'`), whose turn is next, and the winner (`""`, `"X"`, `"O"`, `"draw"`). -/
structure Game where
  id : String
  board : List Char
  turn : String
  winner : String
deriving Repr, DecidableEq

/-- The in-memory store `games : map[string]*Game`, as an association list. -/
abbrev Store := List (String × Game)

/-- `games[gid]` map lookup. -/
def storeFind (s : Store) (gid : String) : Option Game :=
  (s.find? (fun kv => kv.1 == gid)).map (fun kv => kv.2)

/-- `games[gid] = g` map assignment: the binding for `gid` is replaced (an
existing record under the same key is overwritten). -/
def storeSet (s : Store) (gid : String) (g : Game) : Store :=
  (gid, g) :: s.filter (fun kv => kv.1 != gid)

/-- `newBoard()`: the empty board `"---------"`. -/
def newBoard : List Char := "---------".toList

/-- Go string/byte indexing `b[i]`.  The Go code only indexes boards of
length 9 with `0 ≤ i ≤ 8`, so the sentinel default is never reached there. -/
def boardGet (b : List Char) (i : Nat) : Char := b.getD i '?'

/-- The 8 winning lines of `checkWinner`, in source order. -/
def winLines : List (Nat × Nat × Nat) :=
  [(0, 1, 2), (3, 4, 5), (6, 7, 8), (0, 3, 6), (1, 4, 7), (2, 5, 8), (0, 4, 8), (2, 4, 6)]

/-- The `for _, w := range winLines` loop body of `checkWinner`: return the
mark of the first fully matched line, else fall through. -/
def checkWinnerLoop (board : List Char) : List (Nat × Nat × Nat) → String
  | [] => ""
  | w :: rest =>
    let a := boardGet board w.1
    let b := boardGet board w.2.1
    let c := boardGet board w.2.2
    if a ≠ '-' ∧ a = b ∧ b = c then String.mk [a]
    else checkWinnerLoop board rest

/-- `checkWinner(board)`: `"X"`, `"O"`, or `""` for none. -/
def checkWinner (board : List Char) : String :=
  checkWinnerLoop board winLines

/-- `genID()`: `fmt.Sprintf("g-%d", rand.Intn(1000000))`; the pseudorandom
draw is passed in and reduced mod 1000000 as `rand.Intn` guarantees. -/
def genID (r : Nat) : String := "g-" ++ toString (r % 1000000)

/-- The fresh record built by `createGameRPC`. -/
def freshGame (id : String) : Game :=
  { id := id, board := newBoard, turn := "X", winner := "" }

/-- Response of `createGameRPC` (the marshalled JSON object). -/
structure CreateResp where
  ok : Bool
  game_id : String
  board : List Char
  turn : String
deriving Repr, DecidableEq

/-- `createGameRPC`: generate an id, insert a fresh game, answer with
`ok`, `game_id`, `board`, `turn`. -/
def createGameRPC (store : Store) (r : Nat) : Store × CreateResp :=
  let id := genID r
  let game := freshGame id
  let store1 := storeSet store id game
  (store1, { ok := true, game_id := game.id, board := game.board, turn := game.turn })

/-- The distinct error returns of `makeMoveRPC`, in source order. -/
inductive MoveErr where
  | invalidPayload
  | missingGameId
  | missingCell
  | invalidCellIndex
  | cellOutOfRange
  | gameNotFound
  | gameFinished
  | cellOccupied
deriving Repr, DecidableEq

/-- The Go error strings. -/
def MoveErr.message : MoveErr → String
  | .invalidPayload => "invalid payload JSON"
  | .missingGameId => "missing game_id"
  | .missingCell => "missing cell"
  | .invalidCellIndex => "invalid cell index"
  | .cellOutOfRange => "cell index out of range"
  | .gameNotFound => "game not found"
  | .gameFinished => "game already finished"
  | .cellOccupied => "cell already occupied"

/-- Response of `makeMoveRPC` on success. -/
structure MoveResp where
  ok : Bool
  game : Game
  board : List Char
  turn : String
  winner : String
deriving Repr, DecidableEq

/-- Go's conversion `int(v)` of a `float64`: the fractional part is
discarded, i.e. truncation toward zero (`Int.tdiv` is T-division). -/
def goIntOfNum (q : ℚ) : Int := q.num.tdiv (q.den : Int)

/-- The `switch v := cellF.(type)` of `makeMoveRPC`: a number (`float64`)
is converted with `cell = int(v)`, truncating toward zero, so `8.5` becomes
`8` and `-0.5` becomes `0`; strings go through `strconv.Atoi` WITH THE
ERROR IGNORED (`n, _ := strconv.Atoi(v)`), so an unparsable string yields
`0`; any other type is the `default` error case.  (The `case int` of the
switch is unreachable: `json.Unmarshal` into `interface{}` never produces
`int`.) -/
def cellOf : JValue → Option Int
  | .num q => some (goIntOfNum q)
  | .str s => some ((goAtoi s).getD 0)
  | .boolean _ => none
  | .null => none

/-- `game.Turn[0]` (`'X'` or `'O'` on every turn string the code builds). -/
def headChar (s : String) : Char := boardGet s.toList 0

/-- Lines 128-145 of `makeMoveRPC`: write the current turn's mark into the
cell, then evaluate termination: winner check first, then draw check, else
flip the turn. -/
def applyMove (game : Game) (cell : Nat) : Game :=
  let boardRunes := game.board.set cell (headChar game.turn)
  let game1 := { game with board := boardRunes }
  let w := checkWinner game1.board
  if w ≠ "" then { game1 with winner := w }
  else if game1.board.contains '-' = false then { game1 with winner := "draw" }
  else if game1.turn = "X" then { game1 with turn := "O" }
  else { game1 with turn := "X" }

/-- `makeMoveRPC`: decode the payload, validate, and apply the move.  The
input is `none` when `json.Unmarshal` fails.  Every error return leaves the
store exactly as it was (the Go code returns before mutating). -/
def makeMoveRPC (store : Store) (payload : Option Payload) :
    Store × Except MoveErr MoveResp :=
  match payload with
  | none => (store, .error .invalidPayload)
  | some p =>
    match lookupField p "game_id" with
    | none => (store, .error .missingGameId)
    | some gidRaw =>
      let gid := fmtV gidRaw
      match lookupField p "cell" with
      | none => (store, .error .missingCell)
      | some cellF =>
        match cellOf cellF with
        | none => (store, .error .invalidCellIndex)
        | some cell =>
          if cell < 0 ∨ cell > 8 then (store, .error .cellOutOfRange)
          else
            match storeFind store gid with
            | none => (store, .error .gameNotFound)
            | some game =>
              if game.winner ≠ "" then (store, .error .gameFinished)
              else if boardGet game.board cell.toNat ≠ '-' then (store, .error .cellOccupied)
              else
                let game2 := applyMove game cell.toNat
                (storeSet store gid game2,
                 .ok { ok := true, game := game2, board := game2.board,
                       turn := game2.turn, winner := game2.winner })

/-- Errors of `getGameRPC`. -/
inductive GetErr where
  | invalidPayload
  | missingGameId
  | gameNotFound
deriving Repr, DecidableEq

/-- Response of `getGameRPC`. -/
structure GetResp where
  ok : Bool
  game : Game
deriving Repr, DecidableEq

/-- `getGameRPC`: look the game up by id; pure read. -/
def getGameRPC (store : Store) (payload : Option Payload) : Except GetErr GetResp :=
  match payload with
  | none => .error .invalidPayload
  | some p =>
    match lookupField p "game_id" with
    | none => .error .missingGameId
    | some gidRaw =>
      let gid := fmtV gidRaw
      match storeFind store gid with
      | none => .error .gameNotFound
      | some game => .ok { ok := true, game := game }

/-- The payload `{"game_id": gid, "cell": v}`. -/
def mkMovePayload (gid : String) (v : JValue) : Payload :=
  [("game_id", JValue.str gid), ("cell", v)]

/-- A successful `make_move` state transition on a single game record: the
guards of `makeMoveRPC` that passed, and the update it then performs. -/
def stepOk (g : Game) (cell : Nat) (g' : Game) : Prop :=
  cell ≤ 8 ∧ g.winner = "" ∧ boardGet g.board cell = '-' ∧ g' = applyMove g cell

/-- Game records reachable through the RPC surface: created fresh by
`createGameRPC` and mutated only by successful `makeMoveRPC` moves. -/
inductive Reachable : Game → Prop where
  | create (id : String) : Reachable (freshGame id)
  | move {g g' : Game} {cell : Nat} :
      Reachable g → stepOk g cell g' → Reachable g'

/-! ### Spec-side definitions (for refinement statements) -/

/-- Written from the spec's words for `CheckWinner`: whether one winning
triple holds three identical non-empty marks. -/
def lineMatched (board : List Char) (w : Nat × Nat × Nat) : Bool :=
  boardGet board w.1 != '-' &&
    (boardGet board w.1 == boardGet board w.2.1) &&
    (boardGet board w.2.1 == boardGet board w.2.2)

/-- Written from the spec's words for `CheckWinner`: the mark of the FIRST
fully matched triple of `winLines`, else none (`""`). -/
def specCheckWinner (board : List Char) : String :=
  match winLines.find? (lineMatched board) with
  | some w => String.mk [boardGet board w.1]
  | none => ""

/-- The inductive invariant of a single game record: board length 9, a
well-formed turn, and the turn/occupancy-count discipline of strict
alternation starting with `"X"`. -/
def GameInv (g : Game) : Prop :=
  g.board.length = 9 ∧
  (g.turn = "X" ∨ g.turn = "O") ∧
  (g.winner = "" →
     (g.turn = "X" ∧ g.board.count 'X' = g.board.count 'O') ∨
     (g.turn = "O" ∧ g.board.count 'X' = g.board.count 'O' + 1)) ∧
  (g.board.count 'X' = g.board.count 'O' ∨ g.board.count 'X' = g.board.count 'O' + 1)

/-! ### Concrete example records used in closed statements -/

/-- A game one move before an X win that fills the last empty cell:
X holds 0,4,6,7 and O holds 1,2,3,5; only cell 8 is empty and X moves. -/
def winOnLastCellEx : Game :=
  { id := "g-9", board := "XOOOXOXX-".toList, turn := "X", winner := "" }

/-- A finished game (X has won on the top row). -/
def finishedGameEx : Game :=
  { id := "g-3", board := "XXXOO----".toList, turn := "X", winner := "X" }

/-- A live in-progress record stored under identifier `"g-5"`, distinct from
a fresh game. -/
def liveGameEx : Game :=
  { id := "g-5", board := "X--------".toList, turn := "O", winner := "" }

/-! ### Helper lemmas -/

/-- Truncating an integral rational is the identity. -/
theorem goIntOfNum_intCast (n : Int) : goIntOfNum (n : ℚ) = n := by
  simp [goIntOfNum, Rat.num_intCast, Rat.den_intCast]

/-- Truncating a natural-number rational is the identity. -/
theorem goIntOfNum_natCast (n : Nat) : goIntOfNum (n : ℚ) = (n : Int) := by
  simp [goIntOfNum, Rat.num_natCast, Rat.den_natCast]

theorem boardGet_eq_getElem (b : List Char) (i : Nat) (h : i < b.length) :
    boardGet b i = b[i] := by
  simp [boardGet, List.getD_eq_getElem?_getD, List.getElem?_eq_getElem h]

theorem boardGet_set_ne (b : List Char) (i j : Nat) (a : Char) (h : i ≠ j) :
    boardGet (b.set i a) j = boardGet b j := by
  simp [boardGet, List.getElem?_set_ne h]

theorem lineMatched_iff (b : List Char) (w : Nat × Nat × Nat) :
    lineMatched b w = true ↔
      (boardGet b w.1 ≠ '-' ∧ boardGet b w.1 = boardGet b w.2.1 ∧
       boardGet b w.2.1 = boardGet b w.2.2) := by
  simp [lineMatched, and_assoc]

theorem checkWinnerLoop_eq_find (b : List Char) (ls : List (Nat × Nat × Nat)) :
    checkWinnerLoop b ls =
      (match ls.find? (lineMatched b) with
       | some w => String.mk [boardGet b w.1]
       | none => "") := by
  induction ls with
  | nil => rfl
  | cons w rest ih =>
    by_cases h : boardGet b w.1 ≠ '-' ∧ boardGet b w.1 = boardGet b w.2.1 ∧
        boardGet b w.2.1 = boardGet b w.2.2
    · rw [List.find?_cons_of_pos _ ((lineMatched_iff b w).mpr h)]
      simp only [checkWinnerLoop]
      rw [if_pos h]
    · rw [List.find?_cons_of_neg _ (by simp [lineMatched_iff, h])]
      simp only [checkWinnerLoop]
      rw [if_neg h, ih]

theorem checkWinnerLoop_cases (b : List Char) (ls : List (Nat × Nat × Nat)) :
    checkWinnerLoop b ls = "" ∨ ∃ a : Char, checkWinnerLoop b ls = String.mk [a] := by
  induction ls with
  | nil => exact Or.inl rfl
  | cons w rest ih =>
    simp only [checkWinnerLoop]
    split
    · exact Or.inr ⟨_, rfl⟩
    · exact ih

/-- `checkWinner` yields `""` or a one-character mark, never `"draw"`. -/
theorem checkWinner_ne_draw (b : List Char) : checkWinner b ≠ "draw" := by
  have hc := checkWinnerLoop_cases b winLines
  unfold checkWinner
  rcases hc with h | ⟨a, h⟩
  · rw [h]; decide
  · rw [h]
    intro hcon
    have hlen : (String.mk [a]).length = "draw".length := congrArg String.length hcon
    have h1 : (String.mk [a]).length = 1 := rfl
    have h4 : "draw".length = 4 := rfl
    omega

theorem storeFind_storeSet_self (s : Store) (gid : String) (g : Game) :
    storeFind (storeSet s gid g) gid = some g := by
  simp [storeFind, storeSet]

theorem find?_key_filter_ne (s : Store) (gid gid' : String) (h : gid' ≠ gid) :
    (s.filter (fun kv => kv.1 != gid)).find? (fun kv => kv.1 == gid') =
      s.find? (fun kv => kv.1 == gid') := by
  induction s with
  | nil => rfl
  | cons kv t ih =>
    by_cases hk : kv.1 = gid
    · have h1 : (kv.1 != gid) = false := by simp [hk]
      have h2 : (kv.1 == gid') = false := by simp [hk, Ne.symm h]
      simp [List.filter_cons, List.find?_cons, h1, h2, ih]
    · have h1 : (kv.1 != gid) = true := by simp [hk]
      by_cases hg : kv.1 = gid'
      · have h2 : (kv.1 == gid') = true := by simp [hg]
        simp [List.filter_cons, List.find?_cons, h1, h2]
      · have h2 : (kv.1 == gid') = false := by simp [hg]
        simp [List.filter_cons, List.find?_cons, h1, h2, ih]

theorem storeFind_storeSet_ne (s : Store) (gid gid' : String) (g : Game)
    (h : gid' ≠ gid) :
    storeFind (storeSet s gid g) gid' = storeFind s gid' := by
  unfold storeFind storeSet
  rw [List.find?_cons_of_neg _ (by simp [Ne.symm h]), find?_key_filter_ne s gid gid' h]

theorem applyMove_board (g : Game) (cell : Nat) :
    (applyMove g cell).board = g.board.set cell (headChar g.turn) := by
  simp only [applyMove]
  split
  · rfl
  · split
    · rfl
    · split <;> rfl

theorem applyMove_win (g : Game) (cell : Nat)
    (h : checkWinner (g.board.set cell (headChar g.turn)) ≠ "") :
    (applyMove g cell).winner = checkWinner (g.board.set cell (headChar g.turn)) ∧
    (applyMove g cell).turn = g.turn := by
  simp only [applyMove]
  rw [if_pos h]
  exact ⟨rfl, rfl⟩

theorem applyMove_draw (g : Game) (cell : Nat)
    (h1 : checkWinner (g.board.set cell (headChar g.turn)) = "")
    (h2 : (g.board.set cell (headChar g.turn)).contains '-' = false) :
    (applyMove g cell).winner = "draw" ∧ (applyMove g cell).turn = g.turn := by
  simp only [applyMove]
  rw [if_neg (not_not_intro h1), if_pos h2]
  exact ⟨rfl, rfl⟩

theorem applyMove_flip (g : Game) (cell : Nat)
    (h1 : checkWinner (g.board.set cell (headChar g.turn)) = "")
    (h2 : (g.board.set cell (headChar g.turn)).contains '-' = true) :
    (applyMove g cell).winner = g.winner ∧
    (applyMove g cell).turn = (if g.turn = "X" then "O" else "X") := by
  simp only [applyMove]
  rw [if_neg (not_not_intro h1), if_neg (by rw [h2]; decide)]
  by_cases ht : g.turn = "X"
  · rw [if_pos ht, if_pos ht]
    exact ⟨rfl, rfl⟩
  · rw [if_neg ht, if_neg ht]
    exact ⟨rfl, rfl⟩

/-- Computation of the success path of `makeMoveRPC` on a well-formed
`{"game_id": gid, "cell": cell}` payload. -/
theorem makeMoveRPC_ok_eq (store : Store) (gid : String) (game : Game) (cell : Nat)
    (hfind : storeFind store gid = some game)
    (hwin : game.winner = "")
    (hcell : cell ≤ 8)
    (hempty : boardGet game.board cell = '-') :
    makeMoveRPC store (some (mkMovePayload gid (JValue.num (cell : ℚ)))) =
      (storeSet store gid (applyMove game cell),
       Except.ok { ok := true, game := applyMove game cell,
                   board := (applyMove game cell).board,
                   turn := (applyMove game cell).turn,
                   winner := (applyMove game cell).winner }) := by
  have h1 : lookupField (mkMovePayload gid (JValue.num (cell : ℚ))) "game_id" =
      some (JValue.str gid) := rfl
  have h2 : lookupField (mkMovePayload gid (JValue.num (cell : ℚ))) "cell" =
      some (JValue.num (cell : ℚ)) := rfl
  have h3 : ¬((cell : Int) < 0 ∨ (cell : Int) > 8) := by omega
  simp only [makeMoveRPC, h1, h2, cellOf, goIntOfNum_natCast, fmtV, hfind,
    Int.toNat_natCast]
  rw [if_neg h3]
  rw [if_neg (not_not_intro hwin), if_neg (not_not_intro hempty)]

/-- Every error return of `makeMoveRPC` leaves the store exactly as it was. -/
theorem makeMoveRPC_error_store_eq (store : Store) (p : Option Payload)
    (st' : Store) (e : MoveErr)
    (h : makeMoveRPC store p = (st', Except.error e)) : st' = store := by
  simp only [makeMoveRPC] at h
  repeat' split at h
  all_goals injection h with hA hB
  all_goals first
    | exact hA.symm
    | exact Except.noConfusion hB

theorem inv_step (g g' : Game) (cell : Nat) (hInv : GameInv g) (hs : stepOk g cell g') :
    GameInv g' := by
  obtain ⟨hc8, hw, he, rfl⟩ := hs
  obtain ⟨hlen, hturn, hrel, _⟩ := hInv
  have hlt : cell < g.board.length := by omega
  have hb : g.board[cell] = '-' := by
    rw [← boardGet_eq_getElem g.board cell hlt]
    exact he
  have hboard := applyMove_board g cell
  have hlen' : (applyMove g cell).board.length = 9 := by
    rw [hboard, List.length_set]
    exact hlen
  have e1 : (('-' : Char) == 'X') = false := by decide
  have e2 : (('-' : Char) == 'O') = false := by decide
  have e3 : (('X' : Char) == 'X') = true := by decide
  have e4 : (('X' : Char) == 'O') = false := by decide
  have e5 : (('O' : Char) == 'X') = false := by decide
  have e6 : (('O' : Char) == 'O') = true := by decide
  rcases hrel hw with ⟨htx, hcnt⟩ | ⟨hto, hcnt⟩
  · -- g.turn = "X": an 'X' is written
    have hm : headChar g.turn = 'X' := by rw [htx]; rfl
    have hX : (g.board.set cell (headChar g.turn)).count 'X' = g.board.count 'X' + 1 := by
      rw [hm, List.count_set 'X' 'X' g.board cell hlt, hb, e1, e3]
      simp
    have hO : (g.board.set cell (headChar g.turn)).count 'O' = g.board.count 'O' := by
      rw [hm, List.count_set 'X' 'O' g.board cell hlt, hb, e2, e4]
      simp
    by_cases hwin2 : checkWinner (g.board.set cell (headChar g.turn)) = ""
    · by_cases hfull : (g.board.set cell (headChar g.turn)).contains '-' = false
      · obtain ⟨hw', ht'⟩ := applyMove_draw g cell hwin2 hfull
        refine ⟨hlen', by rw [ht']; exact hturn, ?_, ?_⟩
        · intro hc
          rw [hw'] at hc
          exact absurd hc (by decide)
        · rw [hboard, hX, hO]
          omega
      · have hfull' : (g.board.set cell (headChar g.turn)).contains '-' = true := by
          revert hfull
          cases (g.board.set cell (headChar g.turn)).contains '-' <;> simp
        obtain ⟨hw', ht'⟩ := applyMove_flip g cell hwin2 hfull'
        refine ⟨hlen', ?_, ?_, ?_⟩
        · rw [ht', if_pos htx]
          exact Or.inr rfl
        · intro _
          refine Or.inr ⟨?_, ?_⟩
          · rw [ht', if_pos htx]
          · rw [hboard, hX, hO]
            omega
        · rw [hboard, hX, hO]
          omega
    · obtain ⟨hw', ht'⟩ := applyMove_win g cell hwin2
      refine ⟨hlen', by rw [ht']; exact hturn, ?_, ?_⟩
      · intro hc
        rw [hw'] at hc
        exact absurd hc hwin2
      · rw [hboard, hX, hO]
        omega
  · -- g.turn = "O": an 'O' is written
    have hm : headChar g.turn = 'O' := by rw [hto]; rfl
    have hX : (g.board.set cell (headChar g.turn)).count 'X' = g.board.count 'X' := by
      rw [hm, List.count_set 'O' 'X' g.board cell hlt, hb, e1, e5]
      simp
    have hO : (g.board.set cell (headChar g.turn)).count 'O' = g.board.count 'O' + 1 := by
      rw [hm, List.count_set 'O' 'O' g.board cell hlt, hb, e2, e6]
      simp
    have hntx : g.turn ≠ "X" := by rw [hto]; decide
    by_cases hwin2 : checkWinner (g.board.set cell (headChar g.turn)) = ""
    · by_cases hfull : (g.board.set cell (headChar g.turn)).contains '-' = false
      · obtain ⟨hw', ht'⟩ := applyMove_draw g cell hwin2 hfull
        refine ⟨hlen', by rw [ht']; exact hturn, ?_, ?_⟩
        · intro hc
          rw [hw'] at hc
          exact absurd hc (by decide)
        · rw [hboard, hX, hO]
          omega
      · have hfull' : (g.board.set cell (headChar g.turn)).contains '-' = true := by
          revert hfull
          cases (g.board.set cell (headChar g.turn)).contains '-' <;> simp
        obtain ⟨hw', ht'⟩ := applyMove_flip g cell hwin2 hfull'
        refine ⟨hlen', ?_, ?_, ?_⟩
        · rw [ht', if_neg hntx]
          exact Or.inl rfl
        · intro _
          refine Or.inl ⟨?_, ?_⟩
          · rw [ht', if_neg hntx]
          · rw [hboard, hX, hO]
            omega
        · rw [hboard, hX, hO]
          omega
    · obtain ⟨hw', ht'⟩ := applyMove_win g cell hwin2
      refine ⟨hlen', by rw [ht']; exact hturn, ?_, ?_⟩
      · intro hc
        rw [hw'] at hc
        exact absurd hc hwin2
      · rw [hboard, hX, hO]
        omega

theorem reachable_inv (g : Game) (h : Reachable g) : GameInv g := by
  induction h with
  | create id =>
    exact ⟨rfl, Or.inl rfl, fun _ => Or.inl ⟨rfl, rfl⟩, Or.inl rfl⟩
  | move hg hs ih => exact inv_step _ _ _ ih hs

/-- Shared: a numeric cell whose Go truncation `int(v)` lies outside
`[0,8]` is rejected with the out-of-range error before the store is
consulted. -/
theorem makeMoveRPC_range_err (store : Store) (gid : String) (q : ℚ)
    (h : goIntOfNum q < 0 ∨ 8 < goIntOfNum q) :
    makeMoveRPC store (some (mkMovePayload gid (JValue.num q))) =
      (store, Except.error MoveErr.cellOutOfRange) := by
  have h1 : lookupField (mkMovePayload gid (JValue.num q)) "game_id" =
      some (JValue.str gid) := rfl
  have h2 : lookupField (mkMovePayload gid (JValue.num q)) "cell" =
      some (JValue.num q) := rfl
  simp only [makeMoveRPC, h1, h2, cellOf]
  rw [if_pos (by omega : goIntOfNum q < 0 ∨ goIntOfNum q > 8)]

/-! ### Claim theorems -/

/-- C2: `checkWinner` scans exactly the 8 fixed triples of `winLines` in
their fixed order and returns the mark of the first triple whose three
cells hold the same non-empty mark (`specCheckWinner`, written from the
spec's words); it returns `""` (none) exactly when no triple is fully
matched.  As a pure Lean function of the board it is side-effect-free. -/
theorem checkWinner_returns_first_matched_line (b : List Char) :
    checkWinner b = specCheckWinner b ∧
    (checkWinner b = "" ↔ ∀ w ∈ winLines, lineMatched b w = false) := by
  have h := checkWinnerLoop_eq_find b winLines
  constructor
  · unfold checkWinner specCheckWinner
    exact h
  · unfold checkWinner
    rw [h]
    cases hf : winLines.find? (lineMatched b) with
    | none =>
      simp only [List.find?_eq_none] at hf
      constructor
      · intro _ w hw
        exact Bool.eq_false_iff.mpr (hf w hw)
      · intro _
        rfl
    | some w =>
      show String.mk [boardGet b w.1] = "" ↔ _
      constructor
      · intro hc
        have h1 : (String.mk [boardGet b w.1]).length = 1 := rfl
        have h0 : ("" : String).length = 0 := rfl
        rw [hc] at h1
        omega
      · intro hall
        have hmem := List.mem_of_find?_eq_some hf
        have hp := List.find?_some hf
        rw [hall w hmem] at hp
        cases hp

/-- C8: every `create_game` builds a Game with the fully empty 9-cell board
`"---------"`, turn `"X"`, winner `""`, inserts it into the store so it is
visible to a subsequent `get_game` lookup, and returns ok with the new
game's id, board and turn. -/
theorem createGame_fresh_empty_game_stored_and_returned (store : Store) (r : Nat) :
    (createGameRPC store r).2 =
      { ok := true, game_id := genID r, board := "---------".toList, turn := "X" } ∧
    storeFind (createGameRPC store r).1 (genID r) = some (freshGame (genID r)) ∧
    (freshGame (genID r)).board = "---------".toList ∧
    (freshGame (genID r)).turn = "X" ∧
    (freshGame (genID r)).winner = "" ∧
    (freshGame (genID r)).board.length = 9 ∧
    getGameRPC (createGameRPC store r).1 (some [("game_id", JValue.str (genID r))]) =
      Except.ok { ok := true, game := freshGame (genID r) } := by
  refine ⟨rfl, storeFind_storeSet_self store (genID r) (freshGame (genID r)),
      rfl, rfl, rfl, rfl, ?_⟩
  have hl : lookupField [("game_id", JValue.str (genID r))] "game_id" =
      some (JValue.str (genID r)) := rfl
  simp only [getGameRPC, hl, fmtV]
  rw [show (createGameRPC store r).1 = storeSet store (genID r) (freshGame (genID r)) from rfl,
    storeFind_storeSet_self]

/-- Counterexample to C10: the payload `{"game_id": "nope", "cell": 8.5}`
has a numeric cell outside `[0,8]`, yet `make_move` does NOT return the
out-of-range error: Go truncates `int(8.5)` to `8`, the range check passes,
the store IS consulted, and the unknown id yields the not-found error. -/
theorem makeMove_nonintegral_cell_reaches_store_lookup :
    (8 : ℚ) < mkRat 17 2 ∧
    goIntOfNum (mkRat 17 2) = 8 ∧
    makeMoveRPC [] (some (mkMovePayload "nope" (JValue.num (mkRat 17 2)))) =
      ([], Except.error MoveErr.gameNotFound) :=
  ⟨by decide, rfl, rfl⟩

/-- C10 (amended): the range check still runs before the store lookup, but
on the TRUNCATED index: a payload whose numeric cell truncates toward zero
(Go's `int(v)`) to a value outside `[0,8]` is answered with the
index-out-of-range error for EVERY store (the store is not consulted), so
for such cells the range error takes precedence over the unknown-id error;
a non-integral cell that truncates into `[0,8]` (such as `8.5`) passes the
range check instead (see the counterexample). -/
theorem makeMove_range_error_precedes_store_lookup (store : Store) (gid : String)
    (q : ℚ) (h : goIntOfNum q < 0 ∨ 8 < goIntOfNum q) :
    makeMoveRPC store (some (mkMovePayload gid (JValue.num q))) =
      (store, Except.error MoveErr.cellOutOfRange) :=
  makeMoveRPC_range_err store gid q h

/-- Witness for C10 (amended): cell 9 on an UNKNOWN game id in an empty
store still yields the out-of-range error, not the not-found error. -/
theorem makeMove_range_error_precedes_store_lookup_witness :
    ((goIntOfNum (9 : ℚ) < 0 ∨ 8 < goIntOfNum (9 : ℚ)) ∧
      storeFind [] "missing" = none) ∧
    makeMoveRPC [] (some (mkMovePayload "missing" (JValue.num 9))) =
      ([], Except.error MoveErr.cellOutOfRange) :=
  ⟨⟨by decide, rfl⟩,
   makeMove_range_error_precedes_store_lookup [] "missing" 9 (by decide)⟩

/-- Counterexample to C4: the payload `{"game_id": "g-1", "cell": "abc"}`
carries a NON-NUMERIC cell, yet `make_move` does not fail with the invalid
index error: `strconv.Atoi`'s error is ignored (`n, _ := strconv.Atoi(v)`),
the cell silently defaults to index 0, and the move succeeds, marking
cell 0. -/
theorem makeMove_nonnumeric_string_cell_not_rejected :
    goAtoi "abc" = none ∧
    makeMoveRPC [("g-1", freshGame "g-1")]
        (some (mkMovePayload "g-1" (JValue.str "abc"))) =
      ([("g-1", { id := "g-1", board := "X--------".toList, turn := "O", winner := "" })],
       Except.ok { ok := true,
                   game := { id := "g-1", board := "X--------".toList,
                             turn := "O", winner := "" },
                   board := "X--------".toList, turn := "O", winner := "" }) :=
  ⟨rfl, rfl⟩

/-- C4 (amended): a cell of non-string, non-number JSON type (boolean or
null) fails with the invalid-cell-index error.  A NUMERIC cell is first
truncated toward zero (Go's `int(v)`) and behaves exactly like the
truncated integer index — it fails with the out-of-range error only when
that truncation lies outside `[0,8]`, so a non-integral number like `8.5`
is silently accepted as cell 8.  And a string cell that `strconv.Atoi`
cannot parse is NOT rejected — its conversion error is ignored and the
call behaves exactly like a move on cell 0. -/
theorem makeMove_cell_validation_behavior (store : Store) (gid : String)
    (q q' : ℚ) (s : String) (b : Bool)
    (hq : goIntOfNum q < 0 ∨ 8 < goIntOfNum q) (hs : goAtoi s = none) :
    makeMoveRPC store (some (mkMovePayload gid (JValue.num q))) =
      (store, Except.error MoveErr.cellOutOfRange) ∧
    makeMoveRPC store (some (mkMovePayload gid (JValue.num q'))) =
      makeMoveRPC store
        (some (mkMovePayload gid (JValue.num ((goIntOfNum q' : Int) : ℚ)))) ∧
    makeMoveRPC store (some (mkMovePayload gid (JValue.boolean b))) =
      (store, Except.error MoveErr.invalidCellIndex) ∧
    makeMoveRPC store (some (mkMovePayload gid JValue.null)) =
      (store, Except.error MoveErr.invalidCellIndex) ∧
    makeMoveRPC store (some (mkMovePayload gid (JValue.str s))) =
      makeMoveRPC store (some (mkMovePayload gid (JValue.num 0))) := by
  refine ⟨makeMoveRPC_range_err store gid q hq, ?_, rfl, rfl, ?_⟩
  · have h1 : lookupField (mkMovePayload gid (JValue.num q')) "game_id" =
        some (JValue.str gid) := rfl
    have h2 : lookupField (mkMovePayload gid (JValue.num q')) "cell" =
        some (JValue.num q') := rfl
    have h3 : lookupField
        (mkMovePayload gid (JValue.num ((goIntOfNum q' : Int) : ℚ))) "game_id" =
        some (JValue.str gid) := rfl
    have h4 : lookupField
        (mkMovePayload gid (JValue.num ((goIntOfNum q' : Int) : ℚ))) "cell" =
        some (JValue.num ((goIntOfNum q' : Int) : ℚ)) := rfl
    simp only [makeMoveRPC, h1, h2, h3, h4, cellOf, goIntOfNum_intCast]
  · have h1 : lookupField (mkMovePayload gid (JValue.str s)) "game_id" =
        some (JValue.str gid) := rfl
    have h2 : lookupField (mkMovePayload gid (JValue.str s)) "cell" =
        some (JValue.str s) := rfl
    have h3 : lookupField (mkMovePayload gid (JValue.num 0)) "game_id" =
        some (JValue.str gid) := rfl
    have h4 : lookupField (mkMovePayload gid (JValue.num 0)) "cell" =
        some (JValue.num 0) := rfl
    have e0 : goIntOfNum (0 : ℚ) = 0 := rfl
    simp only [makeMoveRPC, h1, h2, h3, h4, cellOf, hs, Option.getD_none, e0]

/-- Witness for C4 (amended): cell 9 is out of range, the non-integral cell
`8.5` behaves exactly like its truncation, and the unparsable string cell
`"abc"` behaves exactly like cell 0. -/
theorem makeMove_cell_validation_behavior_witness :
    ((goIntOfNum (9 : ℚ) < 0 ∨ 8 < goIntOfNum (9 : ℚ)) ∧ goAtoi "abc" = none) ∧
    makeMoveRPC [] (some (mkMovePayload "g" (JValue.num (mkRat 17 2)))) =
      makeMoveRPC []
        (some (mkMovePayload "g" (JValue.num ((goIntOfNum (mkRat 17 2) : Int) : ℚ)))) ∧
    makeMoveRPC [] (some (mkMovePayload "g" (JValue.str "abc"))) =
      makeMoveRPC [] (some (mkMovePayload "g" (JValue.num 0))) := by
  have h := makeMove_cell_validation_behavior [] "g" 9 (mkRat 17 2) "abc" true
      (by decide) rfl
  exact ⟨⟨by decide, rfl⟩, h.2.1, h.2.2.2.2⟩

/-- Counterexample to C5: `genID` draws from only 10^6 values, so a
`create_game` whose draw repeats a live identifier does NOT avoid the
collision — it overwrites the existing live record (`games[id] = game`). -/
theorem createGame_collision_overwrites_live_record :
    storeFind [("g-5", liveGameEx)] "g-5" = some liveGameEx ∧
    genID 5 = "g-5" ∧
    (createGameRPC [("g-5", liveGameEx)] 5).1 = [("g-5", freshGame "g-5")] ∧
    storeFind (createGameRPC [("g-5", liveGameEx)] 5).1 "g-5" ≠ some liveGameEx := by
  refine ⟨rfl, rfl, rfl, ?_⟩
  intro h
  have h2 : freshGame "g-5" = liveGameEx := by
    have := Option.some.inj h
    exact this
  exact absurd (congrArg Game.board h2) (by decide)

/-- C5 (amended): `create_game` unconditionally inserts a fresh Game under
`genID r`; all records with a DIFFERENT identifier are preserved, but
identifiers are only pseudorandom over 10^6 values, so a colliding draw
replaces the live record with that identifier (see the counterexample). -/
theorem createGame_inserts_fresh_and_preserves_other_ids (store : Store) (r : Nat)
    (gid : String) (h : gid ≠ genID r) :
    storeFind (createGameRPC store r).1 (genID r) = some (freshGame (genID r)) ∧
    storeFind (createGameRPC store r).1 gid = storeFind store gid :=
  ⟨storeFind_storeSet_self store (genID r) (freshGame (genID r)),
   storeFind_storeSet_ne store (genID r) gid (freshGame (genID r)) h⟩

/-- Witness for C5 (amended). -/
theorem createGame_inserts_fresh_and_preserves_other_ids_witness :
    ("other" ≠ genID 5) ∧
    storeFind (createGameRPC [] 5).1 (genID 5) = some (freshGame (genID 5)) ∧
    storeFind (createGameRPC [] 5).1 "other" = storeFind [] "other" :=
  ⟨by decide, createGame_inserts_fresh_and_preserves_other_ids [] 5 "other" (by decide)⟩

/-- C1: on a stored non-terminal game, a `make_move` on an empty cell with
index in `[0,8]` writes the current turn's mark into that cell and then
evaluates termination in this exact order: a fully matched winning line
sets `winner` to that mark (leaving `turn` unchanged, and never reporting
`"draw"` even on a full board); otherwise a board with no empty cell left
sets `winner` to `"draw"`; otherwise `turn` flips to the other mark. -/
theorem makeMove_marks_cell_then_win_draw_flip
    (store : Store) (gid : String) (game : Game) (cell : Nat)
    (hfind : storeFind store gid = some game)
    (hwin : game.winner = "")
    (hcell : cell ≤ 8)
    (hempty : boardGet game.board cell = '-') :
    makeMoveRPC store (some (mkMovePayload gid (JValue.num (cell : ℚ)))) =
      (storeSet store gid (applyMove game cell),
       Except.ok { ok := true, game := applyMove game cell,
                   board := (applyMove game cell).board,
                   turn := (applyMove game cell).turn,
                   winner := (applyMove game cell).winner }) ∧
    (applyMove game cell).board = game.board.set cell (headChar game.turn) ∧
    (checkWinner (game.board.set cell (headChar game.turn)) ≠ "" →
       (applyMove game cell).winner = checkWinner (game.board.set cell (headChar game.turn)) ∧
       (applyMove game cell).turn = game.turn ∧
       (applyMove game cell).winner ≠ "draw") ∧
    (checkWinner (game.board.set cell (headChar game.turn)) = "" →
       (game.board.set cell (headChar game.turn)).contains '-' = false →
       (applyMove game cell).winner = "draw") ∧
    (checkWinner (game.board.set cell (headChar game.turn)) = "" →
       (game.board.set cell (headChar game.turn)).contains '-' = true →
       (applyMove game cell).winner = "" ∧
       (applyMove game cell).turn = (if game.turn = "X" then "O" else "X")) := by
  refine ⟨makeMoveRPC_ok_eq store gid game cell hfind hwin hcell hempty,
      applyMove_board game cell, ?_, ?_, ?_⟩
  · intro h
    obtain ⟨hw', ht'⟩ := applyMove_win game cell h
    refine ⟨hw', ht', ?_⟩
    rw [hw']
    exact checkWinner_ne_draw _
  · intro h1 h2
    exact (applyMove_draw game cell h1 h2).1
  · intro h1 h2
    obtain ⟨hw', ht'⟩ := applyMove_flip game cell h1 h2
    exact ⟨hw'.trans hwin, ht'⟩

/-- Witness for C1: X's move on cell 8 of `winOnLastCellEx` fills the LAST
empty cell and completes the line `{6,7,8}`: the result is the win `"X"`,
not `"draw"`, although the board is full. -/
theorem makeMove_marks_cell_then_win_draw_flip_witness :
    storeFind [("g-9", winOnLastCellEx)] "g-9" = some winOnLastCellEx ∧
    checkWinner (winOnLastCellEx.board.set 8 (headChar winOnLastCellEx.turn)) = "X" ∧
    (winOnLastCellEx.board.set 8 (headChar winOnLastCellEx.turn)).contains '-' = false ∧
    (applyMove winOnLastCellEx 8).winner =
      checkWinner (winOnLastCellEx.board.set 8 (headChar winOnLastCellEx.turn)) ∧
    (applyMove winOnLastCellEx 8).winner ≠ "draw" := by
  have h := makeMove_marks_cell_then_win_draw_flip [("g-9", winOnLastCellEx)] "g-9"
      winOnLastCellEx 8 rfl rfl (by decide) (by decide)
  have hw := h.2.2.1 (by decide)
  exact ⟨rfl, by decide, by decide, hw.1, hw.2.2⟩

/-- C3: every failing `make_move` call (malformed payload, missing field,
invalid or out-of-range index, unknown id, terminal game, occupied cell)
leaves the store — hence every stored Game record — completely unchanged;
and on a stored game whose winner is already set, a `make_move` with any
valid cell fails with the game-finished error and returns the store
untouched. -/
theorem makeMove_failure_leaves_record_unchanged
    (store st' : Store) (gid : String) (cell : Nat) (game : Game)
    (p : Option Payload) (e : MoveErr)
    (hfind : storeFind store gid = some game)
    (hcell : cell ≤ 8)
    (herr : makeMoveRPC store p = (st', Except.error e)) :
    st' = store ∧
    (game.winner ≠ "" →
      makeMoveRPC store (some (mkMovePayload gid (JValue.num (cell : ℚ)))) =
        (store, Except.error MoveErr.gameFinished)) := by
  refine ⟨makeMoveRPC_error_store_eq store p st' e herr, ?_⟩
  intro hw
  have h1 : lookupField (mkMovePayload gid (JValue.num (cell : ℚ))) "game_id" =
      some (JValue.str gid) := rfl
  have h2 : lookupField (mkMovePayload gid (JValue.num (cell : ℚ))) "cell" =
      some (JValue.num (cell : ℚ)) := rfl
  have h3 : ¬((cell : Int) < 0 ∨ (cell : Int) > 8) := by omega
  simp only [makeMoveRPC, h1, h2, cellOf, goIntOfNum_natCast, fmtV, hfind]
  rw [if_neg h3, if_pos hw]

/-- Witness for C3: on the finished game, the failing move leaves the store
byte-identical and reports the game-finished error. -/
theorem makeMove_failure_leaves_record_unchanged_witness :
    storeFind [("g-3", finishedGameEx)] "g-3" = some finishedGameEx ∧
    finishedGameEx.winner ≠ "" ∧
    makeMoveRPC [("g-3", finishedGameEx)]
        (some (mkMovePayload "g-3" (JValue.num 4))) =
      ([("g-3", finishedGameEx)], Except.error MoveErr.gameFinished) := by
  have h := makeMove_failure_leaves_record_unchanged [("g-3", finishedGameEx)]
      [("g-3", finishedGameEx)] "g-3" 4 finishedGameEx
      (some (mkMovePayload "g-3" (JValue.num 4))) MoveErr.gameFinished
      rfl (by decide) rfl
  exact ⟨rfl, by decide, h.2 (by decide)⟩

/-- C6: in every reachable game state the marks strictly alternate starting
with `"X"` — while the game is not terminal, it is X's turn exactly when
both marks occupy equally many cells and O's turn exactly when X leads by
one — and at all times (terminal states included) the occupied-cell counts
of the two marks differ by at most one. -/
theorem reachable_turn_alternates_and_counts_balanced (g : Game)
    (hg : Reachable g) :
    (g.winner = "" →
       (g.turn = "X" ∧ g.board.count 'X' = g.board.count 'O') ∨
       (g.turn = "O" ∧ g.board.count 'X' = g.board.count 'O' + 1)) ∧
    (g.board.count 'X' = g.board.count 'O' ∨
     g.board.count 'X' = g.board.count 'O' + 1) := by
  obtain ⟨_, _, h3, h4⟩ := reachable_inv g hg
  exact ⟨h3, h4⟩

/-- Witness for C6: the game reached by X's first move on cell 4. -/
theorem reachable_turn_alternates_and_counts_balanced_witness :
    Reachable (applyMove (freshGame "g-6") 4) ∧
    (((applyMove (freshGame "g-6") 4).winner = "" →
       ((applyMove (freshGame "g-6") 4).turn = "X" ∧
          (applyMove (freshGame "g-6") 4).board.count 'X' =
            (applyMove (freshGame "g-6") 4).board.count 'O') ∨
       ((applyMove (freshGame "g-6") 4).turn = "O" ∧
          (applyMove (freshGame "g-6") 4).board.count 'X' =
            (applyMove (freshGame "g-6") 4).board.count 'O' + 1)) ∧
     ((applyMove (freshGame "g-6") 4).board.count 'X' =
        (applyMove (freshGame "g-6") 4).board.count 'O' ∨
      (applyMove (freshGame "g-6") 4).board.count 'X' =
        (applyMove (freshGame "g-6") 4).board.count 'O' + 1)) := by
  have hr : Reachable (applyMove (freshGame "g-6") 4) :=
    Reachable.move (Reachable.create "g-6") ⟨by decide, rfl, by decide, rfl⟩
  exact ⟨hr, reachable_turn_alternates_and_counts_balanced _ hr⟩

/-- C7: every reachable game state has a board of length exactly 9, and a
valid move (non-terminal game, index in `[0,8]`, empty target cell)
preserves the length and leaves every occupied cell untouched: a cell only
ever transitions from empty to a mark, never back and never to a different
mark. -/
theorem reachable_board_length_and_cells_monotone (g : Game) (cell i : Nat)
    (hg : Reachable g) :
    g.board.length = 9 ∧
    (g.winner = "" → cell ≤ 8 → boardGet g.board cell = '-' →
       ((applyMove g cell).board.length = 9 ∧
        (boardGet g.board i ≠ '-' →
          boardGet (applyMove g cell).board i = boardGet g.board i ∧
          boardGet (applyMove g cell).board i ≠ '-'))) := by
  have hinv := reachable_inv g hg
  refine ⟨hinv.1, ?_⟩
  intro hw hc he
  have hboard := applyMove_board g cell
  constructor
  · rw [hboard, List.length_set]
    exact hinv.1
  · intro hocc
    have hne : cell ≠ i := by
      intro hic
      exact hocc (by rw [← hic]; exact he)
    constructor
    · rw [hboard, boardGet_set_ne g.board cell i _ hne]
    · rw [hboard, boardGet_set_ne g.board cell i _ hne]
      exact hocc

/-- Witness for C7: after X's move on cell 4, a move by O on cell 0 keeps
the board at length 9 and leaves the occupied cell 4 holding `'X'`. -/
theorem reachable_board_length_and_cells_monotone_witness :
    Reachable (applyMove (freshGame "g-7") 4) ∧
    ((applyMove (freshGame "g-7") 4).board.length = 9 ∧
     ((applyMove (freshGame "g-7") 4).winner = "" → 0 ≤ 8 →
        boardGet (applyMove (freshGame "g-7") 4).board 0 = '-' →
        ((applyMove (applyMove (freshGame "g-7") 4) 0).board.length = 9 ∧
         (boardGet (applyMove (freshGame "g-7") 4).board 4 ≠ '-' →
           boardGet (applyMove (applyMove (freshGame "g-7") 4) 0).board 4 =
             boardGet (applyMove (freshGame "g-7") 4).board 4 ∧
           boardGet (applyMove (applyMove (freshGame "g-7") 4) 0).board 4 ≠ '-')))) := by
  have hr : Reachable (applyMove (freshGame "g-7") 4) :=
    Reachable.move (Reachable.create "g-7") ⟨by decide, rfl, by decide, rfl⟩
  exact ⟨hr, reachable_board_length_and_cells_monotone _ 0 4 hr⟩

end TicTacToe
